import Mathlib

/-!
# Verification of the Poster ETL core (JCAvol1)

Shallow embedding of the extraction / normalization / flattening / aggregation
core of the repository:

* `src/modules/api_client.py` — `PosterClient._fetch_all` (pagination engine with
  response-shape normalization) and `PosterClient.get_supplies` (nested-record
  flattener);
* `src/modules/data_processor.py` — `DataProcessor.process_top_products` and
  `DataProcessor.process_hourly_sales`;
* `src/main.py` — the `calculate_kpi` call site (the function itself is absent
  from the sources and is modelled from the spec).

Decoded JSON bodies are modelled by the inductive type `JSON`; Python dicts are
insertion-ordered association lists; Python floats used for money are modelled
by `ℚ` (no claim here depends on floating-point rounding); Python exceptions
are modelled by `Except`/`Option`.
-/

set_option maxHeartbeats 1000000
set_option maxRecDepth 8000

namespace Poster

/-- A decoded JSON value, as produced by `response.json()`.  Python `None` and
JSON `null` coincide in this context.  Poster bodies observed by the code are
built from null, booleans, integers, strings, arrays and objects; objects keep
insertion order, as Python dicts do. -/
inductive JSON where
  | null : JSON
  | bool : Bool → JSON
  | int  : Int → JSON
  | str  : String → JSON
  | list : List JSON → JSON
  | obj  : List (String × JSON) → JSON
  deriving Repr, Inhabited

/-- Structural equality of JSON values (deriving cannot handle the nested
inductive here, so it is written out and proved correct below). -/
def beqJSON : JSON → JSON → Bool
  | .null, .null => true
  | .bool a, .bool b => a == b
  | .int a, .int b => a == b
  | .str a, .str b => a == b
  | .list [], .list [] => true
  | .list (x :: xs), .list (y :: ys) => beqJSON x y && beqJSON (.list xs) (.list ys)
  | .obj [], .obj [] => true
  | .obj ((k, v) :: xs), .obj ((k', v') :: ys) =>
      k == k' && beqJSON v v' && beqJSON (.obj xs) (.obj ys)
  | _, _ => false

theorem beqJSON_iff : ∀ (a b : JSON), beqJSON a b = true ↔ a = b
  | .null, .null => by simp [beqJSON]
  | .bool a, .bool b => by simp [beqJSON]
  | .int a, .int b => by simp [beqJSON]
  | .str a, .str b => by simp [beqJSON]
  | .list [], .list [] => by simp [beqJSON]
  | .list (x :: xs), .list (y :: ys) => by
      have h1 := beqJSON_iff x y
      have h2 := beqJSON_iff (.list xs) (.list ys)
      simp only [beqJSON, Bool.and_eq_true, h1, h2, JSON.list.injEq, List.cons.injEq]
  | .obj [], .obj [] => by simp [beqJSON]
  | .obj ((k, v) :: xs), .obj ((k', v') :: ys) => by
      have h1 := beqJSON_iff v v'
      have h2 := beqJSON_iff (.obj xs) (.obj ys)
      simp only [beqJSON, Bool.and_eq_true, beq_iff_eq, h1, h2, JSON.obj.injEq,
        List.cons.injEq, Prod.mk.injEq]
  | .null, .bool _ | .null, .int _ | .null, .str _ | .null, .list _ | .null, .obj _
  | .bool _, .null | .bool _, .int _ | .bool _, .str _ | .bool _, .list _ | .bool _, .obj _
  | .int _, .null | .int _, .bool _ | .int _, .str _ | .int _, .list _ | .int _, .obj _
  | .str _, .null | .str _, .bool _ | .str _, .int _ | .str _, .list _ | .str _, .obj _
  | .list _, .null | .list _, .bool _ | .list _, .int _ | .list _, .str _ | .list _, .obj _
  | .list [], .list (_ :: _) | .list (_ :: _), .list []
  | .obj _, .null | .obj _, .bool _ | .obj _, .int _ | .obj _, .str _ | .obj _, .list _
  | .obj [], .obj (_ :: _) | .obj (_ :: _), .obj [] => by simp [beqJSON]

instance : DecidableEq JSON := fun a b => decidable_of_iff _ (beqJSON_iff a b)

abbrev Dict := List (String × JSON)

/-- First-match lookup, like Python `d[k]` / `d.get(k)` on a dict (keys of a
Python dict are unique, so first-match is exact). -/
def dictGet : Dict → String → Option JSON
  | [], _ => none
  | (k', v') :: rest, k => if k' = k then some v' else dictGet rest k

/-- Python `d[k] = v`: replaces the value in place if the key exists, else
appends the new pair at the end (insertion order). -/
def dictSet : Dict → String → JSON → Dict
  | [], k, v => [(k, v)]
  | (k', v') :: rest, k, v =>
      if k' = k then (k', v) :: rest else (k', v') :: dictSet rest k v

/-- Python `k in d`. -/
def hasKey (d : Dict) (k : String) : Bool := (dictGet d k).isSome

/-- Python `k in j` for a value known to be checked with `isinstance(j, dict)`
first: `False` on non-dicts. -/
def hasKeyJ : JSON → String → Bool
  | .obj kvs, k => hasKey kvs k
  | _, _ => false

/-- Python `j.get(k)` with a default, on a value that may or may not be a dict;
on a non-dict the callers modelled here never reach this (they guard with
`isinstance`), so the default is returned. -/
def objGetD (j : JSON) (k : String) (d : JSON) : JSON :=
  match j with
  | .obj kvs => (dictGet kvs k).getD d
  | _ => d

/-- Python truthiness of a decoded JSON value (`bool(v)`). -/
def truthy : JSON → Bool
  | .null => false
  | .bool b => b
  | .int n => n != 0
  | .str s => s != ""
  | .list l => !l.isEmpty
  | .obj kvs => !kvs.isEmpty

/-! ## The pagination engine: `PosterClient._fetch_all`

`api_client.py` lines 25–115.  One HTTP exchange is a `PageResp`; a whole run
of the fetcher is driven by a script: the list of responses the upstream
returns to the 1st, 2nd, … request.  The loop body is translated check by
check below. -/

/-- The outcome of one `requests.get` call, as the loop body observes it:
a raised `requests.exceptions.RequestException`, or a response with a status
code and a body (`none` = `response.json()` raises `ValueError`). -/
inductive PageResp where
  | netErr : PageResp
  | resp : Nat → Option JSON → PageResp
  deriving Repr, DecidableEq

/-- Python `list.extend(batch)`: the items actually appended to `all_items`
when `batch` holds the given value.  Lists contribute their elements, strings
their characters, dicts their keys; scalars make `extend` raise `TypeError`
(caught by the loop's blanket `except`, so nothing is appended). -/
def extendItems : JSON → Option (List JSON)
  | .list l => some l
  | .str s => some (s.toList.map fun c => JSON.str (String.mk [c]))
  | .obj kvs => some (kvs.map fun kv => JSON.str kv.1)
  | _ => none

/-- `api_client.py` lines 58–101 applied to one decoded body `data`:
the list of records this page contributes to `all_items`, or `none` when the
loop `break`s on this page having appended nothing.  Every `break`-before-
append path (scalar sentinel, error envelope, `AttributeError` on
`data.get` for a string body, sentinel `response` value, falsy batch,
`TypeError` inside `extend`) is `none`. -/
def processBody (data : JSON) : Option (List JSON) :=
  match data with
  | .int _ => none                    -- top-level `0` sentinel: break
  | .bool _ => none                   -- top-level `False` sentinel: break
  | .null => none                     -- top-level null: break
  | .str _ => none                    -- `data.get` raises AttributeError: caught, break
  | .list l =>                        -- `raw_response = data` (rare list body)
      if l.isEmpty then none else some l
  | .obj kvs =>
      if hasKey kvs "error" then none -- API error envelope: warn and break
      else
        -- `raw_response = data.get("response")`; absent key gives Python None
        match (dictGet kvs "response").getD .null with
        | .int _ => none              -- sentinel response value: break
        | .bool _ => none
        | .null => none
        | .str _ => none              -- batch stays []: `if not batch: break`
        | .list l => if l.isEmpty then none else some l
        | .obj rkvs =>
            -- `{'data': [...]}` envelope, else fallback to dict values
            let batch : JSON :=
              match dictGet rkvs "data" with
              | some v => v
              | none => .list (rkvs.map (·.2))
            if truthy batch then extendItems batch else none

/-- The Response Normalizer (spec §4.1): the record list one decoded page value
contributes, with every break-without-records path reading as the empty list.
It is the pure content of `api_client.py` lines 58–101. -/
def normalize (data : JSON) : List JSON := (processBody data).getD []

/-- The effect of one loop iteration (`api_client.py` lines 43–112) given the
upstream's response to this iteration's request. -/
inductive StepResult where
  | halt : StepResult                      -- break, nothing appended
  | last : List JSON → StepResult          -- appended, then break (short page)
  | next : List JSON → StepResult          -- appended, loop continues
  deriving Repr, DecidableEq

/-- One loop iteration.  The checks appear in source order: network error,
HTTP status, JSON decoding, body processing, then the short-page test against
`params["limit"] = 1000`. -/
def pageStep (r : PageResp) : StepResult :=
  match r with
  | .netErr => .halt
  | .resp status body =>
      if status ≠ 200 then .halt
      else
        match body with
        | none => .halt                    -- `response.json()` raised ValueError
        | some data =>
            match processBody data with
            | none => .halt
            | some items =>
                if items.length < 1000 then .last items else .next items

/-- The observable result of one `_fetch_all` call: the returned list, the
number of HTTP requests issued, and the caller's `params` dict as the call
leaves it (the code writes into the caller's dict, never a copy). -/
structure FetchResult where
  items : List JSON
  requests : Nat
  finalParams : Dict
  deriving Repr, DecidableEq

/-- The `while True:` loop of `_fetch_all`, driven by the response script.
`params["offset"] = offset` happens before each request.  An exhausted script
(the loop would issue another request but the script has no answer) returns
with zero further requests; the claims below only quantify over scripts the
loop finishes inside. -/
def fetchLoop (params : Dict) (offset : Nat) : List PageResp → FetchResult
  | [] => ⟨[], 0, params⟩
  | r :: rs =>
      let params' := dictSet params "offset" (.int offset)
      match pageStep r with
      | .halt => ⟨[], 1, params'⟩
      | .last items => ⟨items, 1, params'⟩
      | .next items =>
          let rest := fetchLoop params' (offset + 1000) rs
          ⟨items ++ rest.items, rest.requests + 1, rest.finalParams⟩

/-- `PosterClient._fetch_all` (lines 25–115): seeds `params["token"]` and
`params["limit"] = 1000` into the caller's dict, then runs the loop from
`offset = 0`. -/
def fetch_all (token : JSON) (params : Dict) (script : List PageResp) : FetchResult :=
  fetchLoop (dictSet (dictSet params "token" token) "limit" (.int 1000)) 0 script

/-- Whether the loop finishes somewhere inside the given response script. -/
def hasStop : List PageResp → Bool
  | [] => false
  | r :: rs =>
      match pageStep r with
      | .next _ => hasStop rs
      | _ => true

/-- A successful page whose unwrapped `response` payload is the record list
`b`, i.e. the body `{"response": b}`. -/
def okPage (b : List JSON) : PageResp := .resp 200 (some (.obj [("response", .list b)]))

/-- An upstream behaviour `_fetch_all` classifies as a failure and reports via
`st.warning`/`st.error`: a raised network error, a non-200 status, an
undecodable body, or an API error envelope. -/
def isFailurePage : PageResp → Bool
  | .netErr => true
  | .resp _ none => true
  | .resp status (some d) => status != 200 || hasKeyJ d "error"

/-! ## Numeric cell conversion

`float(...)` in `get_supplies` and `pd.to_numeric(..., errors='coerce')` in the
processor.  Poster sends money as integer minor units, often as decimal
strings; floats are modelled by `ℚ` (no claim depends on binary rounding). -/

/-- Value of a digit string (most significant first). -/
def digitsVal (cs : List Char) : ℕ := cs.foldl (fun a c => 10 * a + (c.toNat - 48)) 0

/-- Python `float(s)` on the decimal literals that occur here: optional sign,
integer digits, optional fractional digits.  `none` models a raised
`ValueError`. -/
def parseRatNum (s : String) : Option ℚ :=
  let signed : Bool × List Char :=
    match s.toList with
    | '-' :: rest => (true, rest)
    | cs => (false, cs)
  let ip := signed.2.takeWhile (·.isDigit)
  let rest := signed.2.dropWhile (·.isDigit)
  let val : Option ℚ :=
    match rest with
    | [] => if ip.isEmpty then none else some (digitsVal ip : ℚ)
    | '.' :: fp =>
        if fp.all (·.isDigit) && !(ip.isEmpty && fp.isEmpty) then
          some ((digitsVal ip : ℚ) + (digitsVal fp : ℚ) / (10 : ℚ) ^ fp.length)
        else none
    | _ => none
  val.map (fun v => if signed.1 then -v else v)

/-- Python `float(v)` on a decoded JSON cell: ints convert exactly, booleans
give 1/0, numeric strings parse (surrounding whitespace tolerated); any other
shape raises `ValueError`/`TypeError` (`none`). -/
def pyFloat : JSON → Option ℚ
  | .int n => some (n : ℚ)
  | .bool b => some (if b then 1 else 0)
  | .str s => parseRatNum s.trim
  | _ => none

/-- `pd.to_numeric(cell, errors='coerce')`; `none` is the coerced NaN.  On the
int and numeric-string cells the claims exercise it agrees with `float`. -/
def toNumeric : JSON → Option ℚ := pyFloat

/-! ## The record flattener: `PosterClient.get_supplies`

`api_client.py` lines 158–199.  `Except Unit` carries "an uncaught Python
exception escapes `get_supplies`". -/

/-- One flattened supply line (the dict built at lines 188–197). -/
structure FlatRow where
  supply_id : JSON
  date : JSON
  supplier_id : JSON
  ingredient_id : JSON
  ingredient_name : JSON
  quantity : ℚ
  unit_price : ℚ
  total_sum : ℚ
  deriving Repr, DecidableEq

/-- Lines 181–186: the three conversions inside the per-item `try`.  A
`ValueError`/`TypeError` raised by any of them zeroes all three (the `except`
assigns `price, total_sum, num = 0, 0, 0`). -/
def itemNums (kvs : Dict) : ℚ × ℚ × ℚ :=
  match pyFloat ((dictGet kvs "price").getD (.int 0)),
        pyFloat ((dictGet kvs "sum").getD (.int 0)),
        pyFloat ((dictGet kvs "num").getD (.int 0)) with
  | some p, some s, some n => (p / 100, s / 100, n)
  | _, _, _ => (0, 0, 0)

/-- Lines 179–197: one child item.  A non-dict item makes `item.get` raise
`AttributeError`, which nothing in `get_supplies` catches (the inner `except`
only handles `ValueError`/`TypeError`). -/
def flattenItem (sid sdate ssup : JSON) : JSON → Except Unit FlatRow
  | .obj kvs =>
      let pqn := itemNums kvs
      .ok ⟨sid, sdate, ssup,
           (dictGet kvs "ingredient_id").getD .null,
           (dictGet kvs "ingredient_name").getD .null,
           pqn.2.2, pqn.1, pqn.2.1⟩
  | _ => .error ()

/-- Lines 168–197: one parent supply record.  The guard
`if not ingredients or isinstance(ingredients, (int, bool)): continue` skips
falsy and numeric/boolean nested values; a surviving non-list (a non-empty
dict or string) is iterated, and `.get` on its string elements raises. -/
def flattenSupply (supply : JSON) : Except Unit (List FlatRow) :=
  match supply with
  | .obj kvs =>
      let sid := (dictGet kvs "supply_id").getD .null
      let sdate := (dictGet kvs "date").getD .null
      let ssup := (dictGet kvs "supplier_id").getD .null
      let ingredients := (dictGet kvs "ingredients").getD (.list [])
      if truthy ingredients then
        match ingredients with
        | .int _ => .ok []                 -- isinstance(ingredients, (int, bool))
        | .bool _ => .ok []
        | .list l => l.mapM (flattenItem sid sdate ssup)
        | .str _ => .error ()              -- iterates characters: `.get` raises
        | .obj _ => .error ()              -- iterates keys: `.get` raises
        | .null => .ok []                  -- unreachable: null is falsy
      else .ok []
  | _ => .error ()                         -- `supply.get` on a non-dict raises

/-- The whole `get_supplies` flattening pass over the fetched record list. -/
def get_supplies_rows (raw : List JSON) : Except Unit (List FlatRow) :=
  (raw.mapM flattenSupply).map List.flatten

/-! ## Sorting building blocks for the pandas aggregations

`groupby(sort=True)` presents group keys in ascending sorted order;
`sort_values(by=k, ascending=False)` computes the ascending argsort of the
column (numpy's quicksort, which at the sizes reached here is its insertion
sort and therefore stable) and reverses it, so a run of tied keys comes out in
reverse of its pre-sort order. -/

/-- Insert into a sorted duplicate-free list, keeping it sorted and
duplicate-free. -/
def insertSorted {α : Type} [LinearOrder α] (x : α) : List α → List α
  | [] => [x]
  | y :: ys =>
      if x < y then x :: y :: ys
      else if x = y then y :: ys
      else y :: insertSorted x ys

/-- The distinct values of `l` in ascending order: the group keys produced by
a pandas `groupby`. -/
def sortedKeys {α : Type} [LinearOrder α] (l : List α) : List α := l.foldr insertSorted []

/-- Stable insertion by an ascending key. -/
def insKeyAsc {α β : Type} [LinearOrder β] (key : α → β) (x : α) : List α → List α
  | [] => [x]
  | y :: ys => if key x ≤ key y then x :: y :: ys else y :: insKeyAsc key x ys

/-- Stable ascending sort by key: the ascending argsort underlying
`sort_values`. -/
def sortKeyAsc {α β : Type} [LinearOrder β] (key : α → β) (l : List α) : List α :=
  l.foldr (insKeyAsc key) []

/-! ## The aggregator: `DataProcessor` (data_processor.py) -/

/-- One row of the top-products leaderboard (name index plus the two summed
columns selected at line 41). -/
structure TopRow where
  name : String
  count : ℚ
  payed_sum : ℚ
  deriving Repr, DecidableEq

/-- `df.explode('products')` followed by `dropna(subset=['products'])`, on one
transaction row: a missing cell, `None`, or an empty list become NaN and are
dropped; a non-empty list is exploded to its elements; a non-list scalar stays
as one row.  (The fetcher hands dict records to the frame, so rows are
objects.) -/
def explodeRow (t : JSON) : List JSON :=
  match t with
  | .obj kvs =>
      match dictGet kvs "products" with
      | none => []
      | some .null => []
      | some (.list l) => l
      | some v => [v]
  | _ => []

/-- All exploded line items of the frame, in frame order. -/
def explodedItems (txns : List JSON) : List JSON := (txns.map explodeRow).flatten

def isObjB : JSON → Bool
  | .obj _ => true
  | _ => false

/-- The `name` cell of one normalized item as `groupby('name')` sees it: a
missing name is NaN and its row is dropped by the groupby.  The model covers
string names, the shape Poster sends for product names. -/
def itemName : JSON → Option String
  | .obj kvs =>
      match dictGet kvs "name" with
      | some (.str s) => some s
      | _ => none
  | _ => none

/-- `pd.to_numeric(products_data['count'], errors='coerce')` for one item. -/
def itemCount (i : JSON) : Option ℚ := toNumeric (objGetD i "count" .null)

/-- `pd.to_numeric(products_data['payed_sum'], errors='coerce') / 100` for one
item (line 37: minor units to major units). -/
def itemPayed (i : JSON) : Option ℚ := (toNumeric (objGetD i "payed_sum" .null)).map (· / 100)

/-- `groupby('name')['count'].sum()` for one group: NaN-skipping sum. -/
def groupCount (items : List JSON) (n : String) : ℚ :=
  (items.filter (fun i => itemName i == some n)).foldl (fun a i => a + (itemCount i).getD 0) 0

/-- `groupby('name')['payed_sum'].sum()` for one group: NaN-skipping sum. -/
def groupPayed (items : List JSON) (n : String) : ℚ :=
  (items.filter (fun i => itemName i == some n)).foldl (fun a i => a + (itemPayed i).getD 0) 0

/-- Lines 40–46 of data_processor.py on the normalized items:
`groupby('name')` presents the groups in ascending name order with summed
columns; `sort_values(by='payed_sum', ascending=False)` reverses the stable
ascending argsort of the revenue column; `head(10)` truncates. -/
def topCore (items : List JSON) : List TopRow :=
  let names := sortedKeys (items.filterMap itemName)
  let rows := names.map (fun n => TopRow.mk n (groupCount items n) (groupPayed items n))
  ((sortKeyAsc TopRow.payed_sum rows).reverse).take 10

/-- `DataProcessor.process_top_products` (data_processor.py lines 10–50).
The whole body runs under `try: ... except Exception: return empty frame`, so
every internal raise (a non-dict item under `json_normalize`, a missing
column) is an empty result. -/
def process_top_products (txns : List JSON) : List TopRow :=
  if !txns.any (hasKeyJ · "products") then []            -- 'products' not in df.columns
  else
    let items := explodedItems txns
    if items.isEmpty then []                             -- df_exploded.empty
    else if !items.all isObjB then []                    -- json_normalize raises
    else if !items.any (hasKeyJ · "payed_sum") then []   -- KeyError at line 37
    else if !items.any (hasKeyJ · "count") then []       -- KeyError at line 38
    else if !items.any (hasKeyJ · "name") then []        -- KeyError at line 41
    else topCore items

/-- The row order `sort_values(by='payed_sum', ascending=False)` leaves:
strictly descending revenue, and inside a tied-revenue run strictly descending
group name. -/
def topOrder (x y : TopRow) : Prop :=
  y.payed_sum < x.payed_sum ∨ (y.payed_sum = x.payed_sum ∧ y.name < x.name)

instance : DecidableRel topOrder := fun x y => by unfold topOrder; infer_instance

/-- Hour of a `"YYYY-MM-DD HH:MM:SS"` close-timestamp string (the format the
code's comment documents for `date_close`); `none` when the string does not
parse, in which case `pd.to_datetime` raises. -/
def parseHourDT (s : String) : Option ℕ :=
  match s.toList with
  | [y1, y2, y3, y4, '-', m1, m2, '-', d1, d2, ' ', h1, h2, ':', n1, n2, ':', c1, c2] =>
      if ([y1, y2, y3, y4, m1, m2, d1, d2, h1, h2, n1, n2, c1, c2].all (·.isDigit)) = true ∧
         1 ≤ digitsVal [m1, m2] ∧ digitsVal [m1, m2] ≤ 12 ∧
         1 ≤ digitsVal [d1, d2] ∧ digitsVal [d1, d2] ≤ 31 ∧
         digitsVal [h1, h2] ≤ 23 ∧ digitsVal [n1, n2] ≤ 59 ∧ digitsVal [c1, c2] ≤ 59
      then some (digitsVal [h1, h2]) else none
  | _ => none

/-- `pd.to_datetime` on one `date_close` cell followed by `.dt.hour`:
`ok none` is NaT (NaN hour, dropped by the groupby), `ok (some h)` a real
hour, `error` a raised parse failure, which aborts the whole aggregation.
An integer cell is taken as a raw epoch timestamp in NANOSECONDS (pandas'
default unit for integers) — NOT milliseconds; floor division and flooring
mod give the hour, matching pre-1970 negatives. -/
def rowHour : JSON → Except Unit (Option ℕ)
  | .null => .ok none
  | .int n => .ok (some ((Int.fmod (Int.fdiv n 3600000000000) 24).toNat))
  | .str s =>
      match parseHourDT s with
      | some h => .ok (some h)
      | none => .error ()
  | _ => .error ()

/-- The `date_close` cell of one record (a missing cell is NaN, which
`to_datetime` maps to NaT like `None`). -/
def dateCell (r : JSON) : JSON := objGetD r "date_close" .null

def rowHourOf (r : JSON) : Except Unit (Option ℕ) := rowHour (dateCell r)

/-- Line 67: `sum_col = 'payed_sum' if 'payed_sum' in temp_df.columns else 'sum'`. -/
def sumColName (rows : List JSON) : String :=
  if rows.any (hasKeyJ · "payed_sum") then "payed_sum" else "sum"

/-- Line 70: `pd.to_numeric(temp_df[sum_col], errors='coerce') / 100` on one
cell. -/
def amountCell (col : String) (r : JSON) : Option ℚ :=
  (toNumeric (objGetD r col .null)).map (· / 100)

/-- The vectorized `pd.to_datetime(temp_df['date_close']).dt.hour` column:
the per-cell hours, or the raised parse failure of the first bad cell. -/
def colHours : List JSON → Except Unit (List (Option ℕ))
  | [] => .ok []
  | r :: rs =>
      match rowHourOf r with
      | .error e => .error e
      | .ok h =>
          match colHours rs with
          | .error e => .error e
          | .ok hs => .ok (h :: hs)

/-- The (hour, amount) pairs reaching `groupby('hour')` when the amount column
is `col`: records whose hour is NaN are dropped; a NaN amount (`none`)
survives and is skipped by the sum. -/
def hourPairsWith (col : String) (rows : List JSON) : List (ℕ × Option ℚ) :=
  rows.filterMap (fun r =>
    match rowHourOf r with
    | .ok (some h) => some (h, amountCell col r)
    | _ => none)

/-- The (hour, amount) pairs reaching `groupby('hour')`. -/
def hourPairsOf (rows : List JSON) : List (ℕ × Option ℚ) :=
  hourPairsWith (sumColName rows) rows

/-- `groupby('hour')[sum_col].sum()` for one bucket: NaN-skipping sum. -/
def bucketSum (pairs : List (ℕ × Option ℚ)) (h : ℕ) : ℚ :=
  (pairs.filter (fun p => p.1 == h)).foldl (fun a p => a + p.2.getD 0) 0

/-- `DataProcessor.process_hourly_sales` (data_processor.py lines 52–79).
The whole body runs under `try: ... except Exception: return empty frame`:
one unparseable timestamp, or a missing column, empties the whole result. -/
def process_hourly_sales (rows : List JSON) : List (ℕ × ℚ) :=
  if !rows.any (hasKeyJ · "date_close") then []      -- KeyError at line 61
  else
    match colHours rows with
    | .error _ => []                                  -- pd.to_datetime raised
    | .ok hours =>
        let col := sumColName rows
        if !rows.any (hasKeyJ · col) then []          -- KeyError on 'sum' at line 70
        else
          let pairs := (rows.zip hours).filterMap
            (fun rh => rh.2.map (fun h => (h, amountCell col rh.1)))
          (sortedKeys (pairs.map (·.1))).map (fun h => (h, bucketSum pairs h))

/-! ## KPI summary -/

/-- The KPI triple rendered at src/main.py lines 154–156. -/
structure KPI where
  revenue : ℚ
  checks : ℕ
  avg_check : ℚ
  deriving Repr, DecidableEq

/-- Modelled from the spec: `DataProcessor.calculate_kpi` is invoked at
src/main.py line 151, but no definition of it exists anywhere under src/
(the `DataProcessor` class in data_processor.py has no such method).  Per
spec §4.4, given a revenue field and a unique-transaction-id field it computes
total revenue (sum), check count (count of distinct transaction ids), and
average check (`total / count`, explicitly zero when the count is zero).
A record is abstracted to its (transaction-id, revenue) projection. -/
def calculate_kpi (rows : List (String × ℚ)) : KPI :=
  let revenue := (rows.map (·.2)).sum
  let checks := (rows.map (·.1)).dedup.length
  ⟨revenue, checks, if checks = 0 then 0 else revenue / (checks : ℚ)⟩

/-! # Theorems -/

/-! ## The pagination loop, page by page -/

theorem processBody_okBody (b : List JSON) :
    processBody (.obj [("response", .list b)]) = if b.isEmpty then none else some b := by
  cases b <;> rfl

theorem pageStep_okPage (b : List JSON) :
    pageStep (okPage b) =
      if b.isEmpty then .halt
      else if b.length < 1000 then .last b else .next b := by
  cases b with
  | nil => rfl
  | cons x xs => simp [okPage, pageStep, processBody_okBody]

theorem pageStep_okPage_full {b : List JSON} (h : 1000 ≤ b.length) :
    pageStep (okPage b) = .next b := by
  have he : b.isEmpty = false := by
    cases b with
    | nil => simp at h
    | cons x xs => rfl
  rw [pageStep_okPage, he]
  simp only [Bool.false_eq_true, if_false]
  rw [if_neg (by omega)]

theorem pageStep_failure {f : PageResp} (hf : isFailurePage f = true) : pageStep f = .halt := by
  cases f with
  | netErr => rfl
  | resp status body =>
      by_cases hs : status = 200
      · subst hs
        cases body with
        | none => simp [pageStep]
        | some d =>
            simp only [isFailurePage, Bool.or_eq_true, bne_iff_ne, ne_eq] at hf
            rcases hf with hs' | hk
            · exact absurd trivial hs'
            · cases d with
              | obj kvs =>
                  simp only [hasKeyJ] at hk
                  simp [pageStep, processBody, hk]
              | list l => simp [hasKeyJ] at hk
              | null => simp [hasKeyJ] at hk
              | bool b => simp [hasKeyJ] at hk
              | int n => simp [hasKeyJ] at hk
              | str s => simp [hasKeyJ] at hk
      · cases body with
        | none => simp [pageStep, hs]
        | some d => simp [pageStep, hs]

theorem fetchLoop_pages (bs : List (List JSON)) (b : List JSON) (rest : List PageResp) :
    ∀ (params : Dict) (offset : Nat),
      (∀ x ∈ bs, 1000 ≤ x.length) → b.length < 1000 →
      (fetchLoop params offset (bs.map okPage ++ okPage b :: rest)).items = bs.flatten ++ b ∧
      (fetchLoop params offset (bs.map okPage ++ okPage b :: rest)).requests = bs.length + 1 := by
  induction bs with
  | nil =>
      intro params offset _ hshort
      by_cases hb : b.isEmpty
      · have hbe : b = [] := by
          cases b with
          | nil => rfl
          | cons x xs => simp at hb
        subst hbe
        simp [fetchLoop, pageStep_okPage]
      · have hbe : b.isEmpty = false := by simpa using hb
        simp [fetchLoop, pageStep_okPage, hbe, hshort]
  | cons x bs ih =>
      intro params offset hfull hshort
      have hx : 1000 ≤ x.length := hfull x (List.mem_cons_self _ _)
      have step := pageStep_okPage_full hx
      have hrec := ih (dictSet params "offset" (.int offset)) (offset + 1000)
        (fun y hy => hfull y (List.mem_cons_of_mem _ hy)) hshort
      simp only [List.map_cons, List.cons_append, fetchLoop, step]
      refine ⟨?_, ?_⟩
      · simp [hrec.1, List.flatten_cons, List.append_assoc]
      · simp [hrec.2]

theorem fetchLoop_until_failure (bs : List (List JSON)) (f : PageResp) (rest : List PageResp) :
    ∀ (params : Dict) (offset : Nat),
      (∀ x ∈ bs, 1000 ≤ x.length) → isFailurePage f = true →
      (fetchLoop params offset (bs.map okPage ++ f :: rest)).items = bs.flatten ∧
      (fetchLoop params offset (bs.map okPage ++ f :: rest)).requests = bs.length + 1 := by
  induction bs with
  | nil =>
      intro params offset _ hf
      simp [fetchLoop, pageStep_failure hf]
  | cons x bs ih =>
      intro params offset hfull hf
      have hx : 1000 ≤ x.length := hfull x (List.mem_cons_self _ _)
      have step := pageStep_okPage_full hx
      have hrec := ih (dictSet params "offset" (.int offset)) (offset + 1000)
        (fun y hy => hfull y (List.mem_cons_of_mem _ hy)) hf
      simp only [List.map_cons, List.cons_append, fetchLoop, step]
      refine ⟨?_, ?_⟩
      · simp [hrec.1, List.flatten_cons]
      · simp [hrec.2]

theorem dictGet_dictSet_self (d : Dict) (k : String) (v : JSON) :
    dictGet (dictSet d k v) k = some v := by
  induction d with
  | nil => simp [dictSet, dictGet]
  | cons p rest ih =>
      by_cases h : p.1 = k
      · simp [dictSet, dictGet, h]
      · simp [dictSet, dictGet, h, ih]

theorem dictGet_dictSet_ne (d : Dict) (k k' : String) (v : JSON) (h : k' ≠ k) :
    dictGet (dictSet d k v) k' = dictGet d k' := by
  have h' : ¬ k = k' := fun he => h he.symm
  induction d with
  | nil => simp [dictSet, dictGet, h']
  | cons p rest ih =>
      obtain ⟨a, b⟩ := p
      by_cases hp : a = k
      · subst hp
        simp [dictSet, dictGet, h']
      · simp [dictSet, dictGet, hp, ih]

theorem fetchLoop_params (script : List PageResp) :
    ∀ (params : Dict) (offset : Nat), hasStop script = true →
      1 ≤ (fetchLoop params offset script).requests ∧
      dictGet (fetchLoop params offset script).finalParams "offset" =
        some (.int (offset + 1000 * ((fetchLoop params offset script).requests - 1))) ∧
      ∀ k, k ≠ "offset" →
        dictGet (fetchLoop params offset script).finalParams k = dictGet params k := by
  induction script with
  | nil => intro params offset h; simp [hasStop] at h
  | cons r rs ih =>
      intro params offset h
      match hstep : pageStep r with
      | .halt =>
          simp only [fetchLoop, hstep]
          exact ⟨le_refl 1, by simp [dictGet_dictSet_self],
            fun k hk => dictGet_dictSet_ne _ _ _ _ hk⟩
      | .last items =>
          simp only [fetchLoop, hstep]
          exact ⟨le_refl 1, by simp [dictGet_dictSet_self],
            fun k hk => dictGet_dictSet_ne _ _ _ _ hk⟩
      | .next items =>
          have hrs : hasStop rs = true := by
            simpa [hasStop, hstep] using h
          have hrec := ih (dictSet params "offset" (.int offset)) (offset + 1000) hrs
          simp only [fetchLoop, hstep]
          refine ⟨by omega, ?_, ?_⟩
          · rw [hrec.2.1]
            congr 2
            have h1 := hrec.1
            omega
          · intro k hk
            rw [hrec.2.2 k hk, dictGet_dictSet_ne _ _ _ _ hk]

/-! ## Claim theorems for the fetcher -/

/-- **C1** (confirmed).  For every sequence of upstream pages at page size
1000, `_fetch_all` terminates at the first short (or empty) batch, returns the
concatenation of all batches fetched so far, and issues one request per page:
for full pages `bs` followed by a short page `b`, it returns
`bs.flatten ++ b` after `bs.length + 1` requests, whatever comes after.  The
witness instantiates pages of sizes [1000, 1000, 400]: 2400 records, 3
requests. -/
theorem fetch_all_pagination (tok : JSON) (params : Dict) (bs : List (List JSON))
    (b : List JSON) (rest : List PageResp)
    (hfull : ∀ x ∈ bs, 1000 ≤ x.length) (hshort : b.length < 1000) :
    (fetch_all tok params (bs.map okPage ++ okPage b :: rest)).items = bs.flatten ++ b ∧
    (fetch_all tok params (bs.map okPage ++ okPage b :: rest)).requests = bs.length + 1 :=
  fetchLoop_pages bs b rest _ 0 hfull hshort

/-- Witness for C1: the spec's mock endpoint with pages of sizes
[1000, 1000, 400] yields exactly 2400 records after exactly 3 requests. -/
theorem fetch_all_pagination_witness :
    ((∀ x ∈ [List.replicate 1000 (JSON.obj []), List.replicate 1000 (JSON.obj [])],
        1000 ≤ x.length) ∧
      (List.replicate 400 (JSON.obj [])).length < 1000) ∧
    (fetch_all (.str "tok") []
      ([List.replicate 1000 (JSON.obj []), List.replicate 1000 (JSON.obj [])].map okPage ++
        okPage (List.replicate 400 (JSON.obj [])) :: [])).items.length = 2400 ∧
    (fetch_all (.str "tok") []
      ([List.replicate 1000 (JSON.obj []), List.replicate 1000 (JSON.obj [])].map okPage ++
        okPage (List.replicate 400 (JSON.obj [])) :: [])).requests = 3 := by
  have h1 : ∀ x ∈ [List.replicate 1000 (JSON.obj []), List.replicate 1000 (JSON.obj [])],
      1000 ≤ x.length := by simp
  have h2 : (List.replicate 400 (JSON.obj [])).length < 1000 := by simp
  have h := fetch_all_pagination (.str "tok") []
    [List.replicate 1000 (JSON.obj []), List.replicate 1000 (JSON.obj [])]
    (List.replicate 400 (JSON.obj [])) [] h1 h2
  refine ⟨⟨h1, h2⟩, ?_, ?_⟩
  · rw [h.1]; simp
  · rw [h.2]; rfl

/-- **C2** (confirmed).  Whatever the failing upstream behaviour — network
error, non-2xx status, undecodable body, or an API error envelope — the loop
stops there without raising and `_fetch_all` returns the list of records
accumulated from the pages fetched before the failure (possibly empty); the
failure is only reported through `st.warning`/`st.error`.  (`fetch_all` is a
total Lean function into `FetchResult`: no exception escapes in the model.) -/
theorem fetch_all_best_effort (tok : JSON) (params : Dict) (bs : List (List JSON))
    (f : PageResp) (rest : List PageResp)
    (hfull : ∀ x ∈ bs, 1000 ≤ x.length) (hf : isFailurePage f = true) :
    (fetch_all tok params (bs.map okPage ++ f :: rest)).items = bs.flatten ∧
    (fetch_all tok params (bs.map okPage ++ f :: rest)).requests = bs.length + 1 :=
  fetchLoop_until_failure bs f rest _ 0 hfull hf

/-- Witness for C2: one full page of 1000 records, then an HTTP 500 with an
undecodable body: the 1000 accumulated records are returned after 2
requests. -/
theorem fetch_all_best_effort_witness :
    ((∀ x ∈ [List.replicate 1000 (JSON.obj [])], 1000 ≤ x.length) ∧
      isFailurePage (.resp 500 none) = true) ∧
    (fetch_all (.str "tok") []
      ([List.replicate 1000 (JSON.obj [])].map okPage ++ PageResp.resp 500 none :: [])).items.length
        = 1000 ∧
    (fetch_all (.str "tok") []
      ([List.replicate 1000 (JSON.obj [])].map okPage ++ PageResp.resp 500 none :: [])).requests
        = 2 := by
  have h1 : ∀ x ∈ [List.replicate 1000 (JSON.obj [])], 1000 ≤ x.length := by simp
  have h2 : isFailurePage (.resp 500 none) = true := rfl
  have h := fetch_all_best_effort (.str "tok") [] [List.replicate 1000 (JSON.obj [])]
    (.resp 500 none) [] h1 h2
  refine ⟨⟨h1, h2⟩, ?_, ?_⟩
  · rw [h.1]; simp
  · rw [h.2]; rfl

/-- **C3** (confirmed).  Normalization sends every integer, boolean and null
page value to the empty record list, and a paginated fetch whose first page
decodes to the sentinel `0` returns `[]` after exactly one request. -/
theorem normalize_sentinels (tok : JSON) (params : Dict) (rest : List PageResp) :
    (∀ n : Int, normalize (.int n) = []) ∧
    (∀ b : Bool, normalize (.bool b) = []) ∧
    normalize .null = [] ∧
    (fetch_all tok params (.resp 200 (some (.int 0)) :: rest)).items = [] ∧
    (fetch_all tok params (.resp 200 (some (.int 0)) :: rest)).requests = 1 :=
  ⟨fun _ => rfl, fun _ => rfl, rfl, rfl, rfl⟩

/-- **C10** (confirmed).  `_fetch_all` writes into the very dict the caller
passed: after a terminating run the caller's `params` additionally holds the
auth token under `"token"`, the page size 1000 under `"limit"`, and the
last-used page offset (1000·(requests−1)) under `"offset"`, while every other
key keeps the caller's value. -/
theorem fetch_all_params_inplace (tok : JSON) (params : Dict) (script : List PageResp)
    (h : hasStop script = true) :
    dictGet (fetch_all tok params script).finalParams "token" = some tok ∧
    dictGet (fetch_all tok params script).finalParams "limit" = some (.int 1000) ∧
    dictGet (fetch_all tok params script).finalParams "offset" =
      some (.int (1000 * ((fetch_all tok params script).requests - 1))) ∧
    ∀ k, k ≠ "token" → k ≠ "limit" → k ≠ "offset" →
      dictGet (fetch_all tok params script).finalParams k = dictGet params k := by
  have hp := fetchLoop_params script
    (dictSet (dictSet params "token" tok) "limit" (.int 1000)) 0 h
  unfold fetch_all
  refine ⟨?_, ?_, ?_, ?_⟩
  · rw [hp.2.2 "token" (by decide), dictGet_dictSet_ne _ _ _ _ (by decide),
      dictGet_dictSet_self]
  · rw [hp.2.2 "limit" (by decide), dictGet_dictSet_self]
  · have := hp.2.1
    simpa using this
  · intro k hk1 hk2 hk3
    rw [hp.2.2 k hk3, dictGet_dictSet_ne _ _ _ _ hk2, dictGet_dictSet_ne _ _ _ _ hk1]

/-- Witness for C10: a one-page run over a caller dict `{"dateFrom": "x"}`
ends with token, limit 1000 and offset 0 added and `dateFrom` untouched. -/
theorem fetch_all_params_inplace_witness :
    hasStop [PageResp.resp 200 (some (.int 0))] = true ∧
    dictGet (fetch_all (.str "tk") [("dateFrom", .str "x")]
      [.resp 200 (some (.int 0))]).finalParams "token" = some (.str "tk") ∧
    dictGet (fetch_all (.str "tk") [("dateFrom", .str "x")]
      [.resp 200 (some (.int 0))]).finalParams "limit" = some (.int 1000) ∧
    dictGet (fetch_all (.str "tk") [("dateFrom", .str "x")]
      [.resp 200 (some (.int 0))]).finalParams "offset" = some (.int 0) ∧
    dictGet (fetch_all (.str "tk") [("dateFrom", .str "x")]
      [.resp 200 (some (.int 0))]).finalParams "dateFrom" = some (.str "x") := by
  have h := fetch_all_params_inplace (.str "tk") [("dateFrom", .str "x")]
    [.resp 200 (some (.int 0))] rfl
  exact ⟨rfl, h.1, h.2.1, by simpa using h.2.2.1,
    h.2.2.2 "dateFrom" (by decide) (by decide) (by decide)⟩

/-! ## C4 and C5: where the `data` key is actually consulted

In the code the `data` key is read only from the value found under
`response` (line 74 computes `raw_response` first; lines 85–88 look for
`data` inside it).  A top-level `{"data": L}` body has no `response` key,
so `raw_response` is `None` and the page normalizes to `[]`. -/

/-- **C4 counterexample.**  Normalizing a top-level `{"data": L}` does NOT
return `L`: the body has no `response` key, so the check at line 78 breaks
with an empty batch. -/
theorem normalize_data_top_level_cex :
    normalize (.obj [("data", .list [.obj [("product_id", .int 1)]])]) = [] ∧
    ([] : List JSON) ≠ [.obj [("product_id", .int 1)]] :=
  ⟨rfl, by decide⟩

/-- **C4 as amended** (corrected).  For every list of mappings `L`, the `data`
key is extracted as the batch one envelope level down: normalizing
`{"response": {"data": L}}` returns `L` itself.  (At the top level,
`{"data": L}` normalizes to `[]`, see the counterexample.) -/
theorem normalize_data_envelope (L : List JSON) (hL : ∀ x ∈ L, ∃ kvs, x = JSON.obj kvs) :
    normalize (.obj [("response", .obj [("data", .list L)])]) = L := by
  cases L with
  | nil => rfl
  | cons x xs => rfl

/-- Witness for the amended C4 at a one-element list of mappings. -/
theorem normalize_data_envelope_witness :
    (∀ x ∈ [JSON.obj [("a", JSON.int 1)]], ∃ kvs, x = JSON.obj kvs) ∧
    normalize (.obj [("response", .obj [("data", .list [.obj [("a", .int 1)]])])]) =
      [.obj [("a", .int 1)]] := by
  have hL : ∀ x ∈ [JSON.obj [("a", JSON.int 1)]], ∃ kvs, x = JSON.obj kvs := by
    intro x hx
    rw [List.mem_singleton] at hx
    exact ⟨_, hx⟩
  exact ⟨hL, normalize_data_envelope [.obj [("a", .int 1)]] hL⟩

/-- **C5 counterexample.**  Unwrapping the `response` envelope does not
commute with normalization when the payload is a dict: for
`X = {"data": [r]}`, `normalize({"response": X}) = [r]` while
`normalize(X) = []` (the code consults `data`/values only after unwrapping
`response`, and never unwraps recursively). -/
theorem normalize_response_unwrap_cex :
    normalize (.obj [("response", .obj [("data", .list [.obj [("b", .int 2)]])])]) =
      [.obj [("b", .int 2)]] ∧
    normalize (.obj [("data", .list [.obj [("b", .int 2)]])]) = [] ∧
    ([JSON.obj [("b", .int 2)]] : List JSON) ≠ [] :=
  ⟨rfl, rfl, by decide⟩

/-- **C5 as amended** (corrected).  `normalize({"response": X}) = normalize(X)`
holds exactly when `X` is not itself a dict (a list, scalar or null); for dict
payloads the two sides differ in general, see the counterexample. -/
theorem normalize_response_unwrap_nonobj (X : JSON) (h : ∀ kvs, X ≠ .obj kvs) :
    normalize (.obj [("response", X)]) = normalize X := by
  cases X with
  | null => rfl
  | bool b => rfl
  | int n => rfl
  | str s => rfl
  | list l => cases l <;> rfl
  | obj kvs => exact absurd rfl (h kvs)

/-- Witness for the amended C5 at a list payload. -/
theorem normalize_response_unwrap_nonobj_witness :
    (∀ kvs, JSON.list [JSON.obj []] ≠ JSON.obj kvs) ∧
    normalize (.obj [("response", .list [.obj []])]) = normalize (.list [.obj []]) := by
  have h : ∀ kvs, JSON.list [JSON.obj []] ≠ JSON.obj kvs := fun kvs hk => by cases hk
  exact ⟨h, normalize_response_unwrap_nonobj (.list [.obj []]) h⟩

/-! ## C6: the supplies flattener's skip guard -/

/-- The nested-field shapes the guard at api_client.py line 176
(`if not ingredients or isinstance(ingredients, (int, bool)): continue`)
actually skips: an absent field, null, any boolean, any integer, or any falsy
value. -/
def skippedIngredients : Option JSON → Prop
  | none => True
  | some v => v = .null ∨ (∃ b, v = .bool b) ∨ (∃ n, v = .int n) ∨ truthy v = false

/-- **C6 counterexample.**  A parent whose nested field is a non-empty dict —
a value that is "otherwise not a non-empty list" — does NOT contribute zero
rows quietly: iterating it yields its string keys and `item.get` raises an
uncaught `AttributeError`, so flattening raises. -/
theorem flatten_nested_dict_raises_cex :
    flattenSupply (.obj [("ingredients", .obj [("x", .int 1)])]) = .error () ∧
    (Except.error () : Except Unit (List FlatRow)) ≠ .ok [] :=
  ⟨rfl, fun h => Except.noConfusion h⟩

/-- **C6 as amended** (corrected).  A parent record whose nested `ingredients`
field is absent, null, a boolean (in particular `false`), an integer sentinel,
or any falsy value contributes zero output rows and does not raise; but a
truthy non-list (a non-empty dict or non-empty string) raises, see the
counterexample. -/
theorem flatten_skip_safety (kvs : Dict)
    (h : skippedIngredients (dictGet kvs "ingredients")) :
    flattenSupply (.obj kvs) = .ok [] := by
  unfold flattenSupply
  cases hg : dictGet kvs "ingredients" with
  | none => simp [hg, truthy]
  | some v =>
      simp only [skippedIngredients, hg] at h
      rcases h with hnull | ⟨b, hb⟩ | ⟨n, hn⟩ | hf
      · subst hnull; simp [hg, truthy]
      · subst hb; cases b <;> simp [hg, truthy]
      · subst hn
        by_cases hz : (n : Int) = 0
        · subst hz; simp [hg, truthy]
        · simp [hg, truthy, hz]
      · simp [hg, hf]

/-- Witness for the amended C6: nested field `false` gives zero rows, no
raise. -/
theorem flatten_skip_safety_witness :
    skippedIngredients (dictGet [("ingredients", JSON.bool false)] "ingredients") ∧
    flattenSupply (.obj [("ingredients", .bool false)]) = .ok [] := by
  have h : skippedIngredients (dictGet [("ingredients", JSON.bool false)] "ingredients") :=
    Or.inr (Or.inl ⟨false, rfl⟩)
  exact ⟨h, flatten_skip_safety _ h⟩

/-! ## C9: the KPI zero guard (spec-modelled) -/

/-- **C9** (confirmed against the spec-modelled definition: `calculate_kpi`
is called at src/main.py line 151 but defined nowhere under src/).  The empty
record set yields revenue 0, check count 0 and average check 0 with no
division error; in general the average check is revenue divided by check
count, explicitly zero whenever the check count is zero. -/
theorem calculate_kpi_zero_guard :
    calculate_kpi [] = ⟨0, 0, 0⟩ ∧
    ∀ rows : List (String × ℚ),
      (calculate_kpi rows).avg_check =
        if (calculate_kpi rows).checks = 0 then 0
        else (calculate_kpi rows).revenue / ((calculate_kpi rows).checks : ℚ) :=
  ⟨rfl, fun _ => rfl⟩

/-! ## Sorting lemmas -/

theorem mem_insertSorted {α : Type} [LinearOrder α] (x a : α) :
    ∀ l : List α, a ∈ insertSorted x l ↔ a = x ∨ a ∈ l := by
  intro l
  induction l with
  | nil => simp [insertSorted]
  | cons y ys ih =>
      unfold insertSorted
      by_cases h1 : x < y
      · rw [if_pos h1]; simp
      · rw [if_neg h1]
        by_cases h2 : x = y
        · rw [if_pos h2]
          subst h2
          simp [List.mem_cons]
        · rw [if_neg h2]
          simp [List.mem_cons, ih]
          tauto

theorem pairwise_insertSorted {α : Type} [LinearOrder α] (x : α) :
    ∀ l : List α, List.Pairwise (· < ·) l → List.Pairwise (· < ·) (insertSorted x l) := by
  intro l
  induction l with
  | nil => intro _; simp [insertSorted]
  | cons y ys ih =>
      intro hl
      obtain ⟨hy, hys⟩ := List.pairwise_cons.mp hl
      unfold insertSorted
      by_cases h1 : x < y
      · rw [if_pos h1]
        refine List.pairwise_cons.mpr ⟨?_, hl⟩
        intro z hz
        rcases List.mem_cons.mp hz with rfl | hz'
        · exact h1
        · exact lt_trans h1 (hy z hz')
      · rw [if_neg h1]
        by_cases h2 : x = y
        · rw [if_pos h2]; exact hl
        · rw [if_neg h2]
          have hyx : y < x := lt_of_le_of_ne (not_lt.mp h1) (fun he => h2 he.symm)
          refine List.pairwise_cons.mpr ⟨?_, ih hys⟩
          intro z hz
          rcases (mem_insertSorted x z ys).mp hz with rfl | hz'
          · exact hyx
          · exact hy z hz'

theorem mem_sortedKeys {α : Type} [LinearOrder α] (a : α) :
    ∀ l : List α, a ∈ sortedKeys l ↔ a ∈ l := by
  intro l
  induction l with
  | nil => simp [sortedKeys]
  | cons x xs ih =>
      show a ∈ insertSorted x (sortedKeys xs) ↔ _
      rw [mem_insertSorted, ih]
      simp [List.mem_cons]

theorem pairwise_sortedKeys {α : Type} [LinearOrder α] :
    ∀ l : List α, List.Pairwise (· < ·) (sortedKeys l) := by
  intro l
  induction l with
  | nil => simp [sortedKeys]
  | cons x xs ih => exact pairwise_insertSorted x _ ih

theorem mem_insKeyAsc {α β : Type} [LinearOrder β] (key : α → β) (x a : α) :
    ∀ l : List α, a ∈ insKeyAsc key x l ↔ a = x ∨ a ∈ l := by
  intro l
  induction l with
  | nil => simp [insKeyAsc]
  | cons y ys ih =>
      unfold insKeyAsc
      by_cases h : key x ≤ key y
      · rw [if_pos h]; simp
      · rw [if_neg h]
        simp [List.mem_cons, ih]
        tauto

theorem mem_sortKeyAsc {α β : Type} [LinearOrder β] (key : α → β) (a : α) :
    ∀ l : List α, a ∈ sortKeyAsc key l ↔ a ∈ l := by
  intro l
  induction l with
  | nil => simp [sortKeyAsc]
  | cons x xs ih =>
      show a ∈ insKeyAsc key x (sortKeyAsc key xs) ↔ _
      rw [mem_insKeyAsc, ih]
      simp [List.mem_cons]

/-- The ascending counterpart of `topOrder`: the order in which the stable
ascending argsort leaves the name-sorted group rows. -/
def ascOrder (x y : TopRow) : Prop :=
  x.payed_sum < y.payed_sum ∨ (x.payed_sum = y.payed_sum ∧ x.name < y.name)

theorem pairwise_insKeyAsc_asc (x : TopRow) :
    ∀ l : List TopRow, List.Pairwise ascOrder l → (∀ y ∈ l, x.name < y.name) →
      List.Pairwise ascOrder (insKeyAsc TopRow.payed_sum x l) := by
  intro l
  induction l with
  | nil => intro _ _; simp [insKeyAsc]
  | cons y ys ih =>
      intro hl hn
      obtain ⟨hy, hys⟩ := List.pairwise_cons.mp hl
      unfold insKeyAsc
      by_cases h : x.payed_sum ≤ y.payed_sum
      · rw [if_pos h]
        refine List.pairwise_cons.mpr ⟨?_, hl⟩
        intro z hz
        rcases List.mem_cons.mp hz with rfl | hz'
        · rcases lt_or_eq_of_le h with hlt | heq
          · exact Or.inl hlt
          · exact Or.inr ⟨heq, hn z (List.mem_cons_self _ _)⟩
        · rcases hy z hz' with hlt | ⟨heq, _⟩
          · exact Or.inl (lt_of_le_of_lt h hlt)
          · rcases lt_or_eq_of_le (le_of_le_of_eq h heq) with hlt2 | heq2
            · exact Or.inl hlt2
            · exact Or.inr ⟨heq2, hn z (List.mem_cons_of_mem _ hz')⟩
      · rw [if_neg h]
        refine List.pairwise_cons.mpr
          ⟨?_, ih hys (fun z hz => hn z (List.mem_cons_of_mem _ hz))⟩
        intro z hz
        rcases (mem_insKeyAsc TopRow.payed_sum x z ys).mp hz with rfl | hz'
        · exact Or.inl (not_le.mp h)
        · exact hy z hz'

theorem pairwise_sortKeyAsc_asc :
    ∀ l : List TopRow, List.Pairwise (fun a b => a.name < b.name) l →
      List.Pairwise ascOrder (sortKeyAsc TopRow.payed_sum l) := by
  intro l
  induction l with
  | nil => intro _; simp [sortKeyAsc]
  | cons x xs ih =>
      intro hl
      obtain ⟨hx, hxs⟩ := List.pairwise_cons.mp hl
      exact pairwise_insKeyAsc_asc x _ (ih hxs)
        (fun y hy => hx y ((mem_sortKeyAsc TopRow.payed_sum y xs).mp hy))

/-! ## C7: the top-products leaderboard -/

theorem topCore_props (items : List JSON) :
    (topCore items).length ≤ 10 ∧
    List.Pairwise topOrder (topCore items) ∧
    ∀ r ∈ topCore items,
      r.count = groupCount items r.name ∧ r.payed_sum = groupPayed items r.name := by
  refine ⟨?_, ?_, ?_⟩
  · exact List.length_take_le 10 _
  · have hnames : List.Pairwise (· < ·) (sortedKeys (items.filterMap itemName)) :=
      pairwise_sortedKeys _
    have hrows : List.Pairwise (fun a b : TopRow => a.name < b.name)
        ((sortedKeys (items.filterMap itemName)).map
          (fun n => TopRow.mk n (groupCount items n) (groupPayed items n))) := by
      rw [List.pairwise_map]
      exact hnames
    have hsorted := pairwise_sortKeyAsc_asc _ hrows
    have hrev : List.Pairwise topOrder
        (sortKeyAsc TopRow.payed_sum
          ((sortedKeys (items.filterMap itemName)).map
            (fun n => TopRow.mk n (groupCount items n) (groupPayed items n)))).reverse := by
      rw [List.pairwise_reverse]
      exact hsorted
    exact hrev.sublist (List.take_sublist _ _)
  · intro r hr
    have hr1 := List.mem_of_mem_take hr
    rw [List.mem_reverse] at hr1
    rw [mem_sortKeyAsc] at hr1
    obtain ⟨n, _, rfl⟩ := List.mem_map.mp hr1
    exact ⟨rfl, rfl⟩

/-- **C7 as amended** (corrected).  The leaderboard groups line items by
product name and sums count and revenue per group, sorts in strictly
descending order of summed revenue, and truncates to the top 10; but two
groups with equal summed revenue appear in DESCENDING name order (the
`groupby` sorts groups alphabetically and the descending `sort_values`
reverses tied runs), not in order of first encounter. -/
theorem process_top_products_props (txns : List JSON) :
    (process_top_products txns).length ≤ 10 ∧
    List.Pairwise topOrder (process_top_products txns) ∧
    ∀ r ∈ process_top_products txns,
      r.count = groupCount (explodedItems txns) r.name ∧
      r.payed_sum = groupPayed (explodedItems txns) r.name := by
  unfold process_top_products
  by_cases h1 : (!txns.any (hasKeyJ · "products")) = true
  · rw [if_pos h1]; exact ⟨by simp, by simp, by simp⟩
  rw [if_neg h1]
  by_cases h2 : (explodedItems txns).isEmpty = true
  · simp only [h2, if_pos]; exact ⟨by simp, by simp, by simp⟩
  simp only [Bool.not_eq_true] at h2
  simp only [h2, Bool.false_eq_true, if_false]
  by_cases h3 : (!(explodedItems txns).all isObjB) = true
  · rw [if_pos h3]; exact ⟨by simp, by simp, by simp⟩
  rw [if_neg h3]
  by_cases h4 : (!(explodedItems txns).any (hasKeyJ · "payed_sum")) = true
  · rw [if_pos h4]; exact ⟨by simp, by simp, by simp⟩
  rw [if_neg h4]
  by_cases h5 : (!(explodedItems txns).any (hasKeyJ · "count")) = true
  · rw [if_pos h5]; exact ⟨by simp, by simp, by simp⟩
  rw [if_neg h5]
  by_cases h6 : (!(explodedItems txns).any (hasKeyJ · "name")) = true
  · rw [if_pos h6]; exact ⟨by simp, by simp, by simp⟩
  rw [if_neg h6]
  exact topCore_props (explodedItems txns)

/-- **C7 counterexample.**  Three groups with equal summed revenue, first
encountered in the order b, a, c, come out as c, b, a: neither the claimed
first-encounter order nor any stable image of it (the groupby sorts the
groups to a, b, c and the descending sort reverses the tied run). -/
theorem top_products_tiebreak_cex :
    (process_top_products
      [.obj [("products", .list
        [.obj [("name", .str "b"), ("count", .int 1), ("payed_sum", .int 10000)],
         .obj [("name", .str "a"), ("count", .int 1), ("payed_sum", .int 10000)],
         .obj [("name", .str "c"), ("count", .int 1), ("payed_sum", .int 10000)]])]]).map
      TopRow.name = ["c", "b", "a"] ∧
    (["c", "b", "a"] : List String) ≠ ["b", "a", "c"] := by
  constructor
  · have hac : ("a" : String) < "c" := String.lt_iff_toList_lt.mpr (by decide)
    have hbc : ("b" : String) < "c" := String.lt_iff_toList_lt.mpr (by decide)
    have hab : ("a" : String) < "b" := String.lt_iff_toList_lt.mpr (by decide)
    have hnba : ¬ ("b" : String) < "a" := by
      rw [String.lt_iff_toList_lt]; decide
    have hnca : ¬ ("c" : String) < "a" := by
      rw [String.lt_iff_toList_lt]; decide
    have hncb : ¬ ("c" : String) < "b" := by
      rw [String.lt_iff_toList_lt]; decide
    simp [process_top_products, topCore, explodedItems, explodeRow, dictGet,
      hasKeyJ, hasKey, isObjB, itemName, itemCount, itemPayed, toNumeric, pyFloat, objGetD,
      groupCount, groupPayed, sortedKeys, insertSorted, sortKeyAsc, insKeyAsc,
      List.any_cons, List.any_nil, List.all_cons, List.all_nil, List.map_cons, List.map_nil,
      List.filterMap_cons, List.filterMap_nil, List.filter_cons, List.filter_nil,
      List.foldr_cons, List.foldr_nil, List.foldl_cons, List.foldl_nil,
      List.flatten, List.isEmpty_cons, List.reverse_cons, List.reverse_nil,
      List.take, List.append_nil, List.nil_append, List.cons_append,
      hac, hbc, hab, hnba, hnca, hncb]
  · decide

/-! ## C8: the hourly revenue aggregation -/

theorem colHours_error : ∀ (rows : List JSON), (∃ r ∈ rows, rowHourOf r = .error ()) →
    colHours rows = .error () := by
  intro rows
  induction rows with
  | nil =>
      rintro ⟨r, hr, _⟩
      simp at hr
  | cons x xs ih =>
      rintro ⟨r, hr, he⟩
      rcases List.mem_cons.mp hr with rfl | hr'
      · simp [colHours, he, Except.bind]
      · cases hx : rowHourOf x with
        | error e =>
            cases e
            simp [colHours, hx, Except.bind]
        | ok v =>
            simp [colHours, hx, Except.bind, ih ⟨r, hr', he⟩]

theorem colHours_ok : ∀ (rows : List JSON), (∀ r ∈ rows, ∃ v, rowHourOf r = .ok v) →
    ∃ hs, colHours rows = .ok hs := by
  intro rows
  induction rows with
  | nil => intro _; exact ⟨[], rfl⟩
  | cons x xs ih =>
      intro h
      obtain ⟨v, hv⟩ := h x (List.mem_cons_self _ _)
      obtain ⟨hs, hhs⟩ := ih (fun r hr => h r (List.mem_cons_of_mem _ hr))
      exact ⟨v :: hs, by simp [colHours, hv, hhs, Except.bind, Except.pure]⟩

theorem zip_pairs_eq (col : String) : ∀ (rows : List JSON) (hs : List (Option ℕ)),
    colHours rows = .ok hs →
    ((rows.zip hs).filterMap (fun rh => rh.2.map (fun h => (h, amountCell col rh.1)))) =
      hourPairsWith col rows := by
  intro rows
  induction rows with
  | nil =>
      intro hs h
      have hnil : hs = [] := by simpa [colHours] using h.symm
      subst hnil
      simp [hourPairsWith]
  | cons x xs ih =>
      intro hs h
      cases hx : rowHourOf x with
      | error e => simp [colHours, hx, Except.bind] at h
      | ok v =>
          cases hxs : colHours xs with
          | error e => simp [colHours, hx, hxs, Except.bind] at h
          | ok vs =>
              simp only [colHours, hx, hxs] at h
              injection h with h2
              subst h2
              cases v with
              | none =>
                  simp [List.zip_cons_cons, List.filterMap_cons, hourPairsWith, hx,
                    ih vs hxs]
              | some h0 =>
                  simp [List.zip_cons_cons, List.filterMap_cons, hourPairsWith, hx,
                    ih vs hxs]

theorem hourPairsWith_no_datecol (col : String) (rows : List JSON)
    (h : rows.any (hasKeyJ · "date_close") = false) : hourPairsWith col rows = [] := by
  rw [show hourPairsWith col rows = rows.filterMap (fun r =>
    match rowHourOf r with
    | .ok (some hh) => some (hh, amountCell col r)
    | _ => none) from rfl]
  rw [List.filterMap_eq_nil_iff]
  intro r hr
  rw [List.any_eq_false] at h
  have hk : hasKeyJ r "date_close" = false := by
    have := h r hr
    simpa using this
  have hd : dateCell r = .null := by
    cases r with
    | obj kvs =>
        simp only [hasKeyJ, hasKey] at hk
        cases hdg : dictGet kvs "date_close" with
        | none => simp [dateCell, objGetD, hdg]
        | some v => rw [hdg] at hk; simp at hk
    | null => rfl
    | bool b => rfl
    | int n => rfl
    | str s => rfl
    | list l => rfl
  simp [rowHourOf, hd, rowHour]

/-- **C8 as amended** (corrected).  The aggregation groups by hour with an
ascending sorted bucket list and characterizes each bucket by the
NaN-skipping sum over its (hour, amount) pairs — but only under the
interpretation the code actually applies: an ISO-like `date_close` string is
bucketed by its literal hour field, while an INTEGER `date_close` is read as
epoch NANOSECONDS (pandas' default), so epoch-millisecond stamps are
misbucketed; and one record whose timestamp fails to parse empties the whole
aggregate (the raised `pd.to_datetime` error hits the blanket `except`)
instead of being dropped individually. -/
theorem process_hourly_sales_props (rows bad : List JSON)
    (hparse : ∀ r ∈ rows, ∃ v, rowHourOf r = .ok v)
    (hcol : rows.any (hasKeyJ · (sumColName rows)) = true)
    (hbad : ∃ r ∈ bad, rowHourOf r = .error ()) :
    process_hourly_sales bad = [] ∧
    List.Pairwise (fun a b => a.1 < b.1) (process_hourly_sales rows) ∧
    (∀ h q, (h, q) ∈ process_hourly_sales rows ↔
      h ∈ (hourPairsOf rows).map (·.1) ∧ q = bucketSum (hourPairsOf rows) h) := by
  have hbadpart : process_hourly_sales bad = [] := by
    unfold process_hourly_sales
    by_cases hg : (!bad.any (hasKeyJ · "date_close")) = true
    · rw [if_pos hg]
    · rw [if_neg hg]
      simp only [colHours_error bad hbad]
  by_cases hg1 : (!rows.any (hasKeyJ · "date_close")) = true
  · have hres : process_hourly_sales rows = [] := by
      unfold process_hourly_sales
      rw [if_pos hg1]
    have hemp : hourPairsOf rows = [] :=
      hourPairsWith_no_datecol _ rows (by simpa using hg1)
    refine ⟨hbadpart, by rw [hres]; exact List.Pairwise.nil, ?_⟩
    intro h q
    rw [hres, show hourPairsOf rows = [] from hemp]
    simp
  · obtain ⟨hs, hok⟩ := colHours_ok rows hparse
    have hres : process_hourly_sales rows =
        (sortedKeys ((hourPairsOf rows).map (·.1))).map
          (fun h => (h, bucketSum (hourPairsOf rows) h)) := by
      unfold process_hourly_sales
      rw [if_neg hg1]
      simp only [hok]
      rw [if_neg (by simpa using hcol)]
      simp only [zip_pairs_eq (sumColName rows) rows hs hok]
      rfl
    refine ⟨hbadpart, ?_, ?_⟩
    · rw [hres, List.pairwise_map]
      exact pairwise_sortedKeys _
    · intro h q
      rw [hres]
      constructor
      · intro hm
        obtain ⟨k, hk, he⟩ := List.mem_map.mp hm
        simp only [Prod.mk.injEq] at he
        obtain ⟨rfl, hq⟩ := he
        exact ⟨(mem_sortedKeys _ _).mp hk, hq.symm⟩
      · rintro ⟨hh, rfl⟩
        exact List.mem_map.mpr ⟨h, (mem_sortedKeys _ _).mpr hh, rfl⟩

/-- Witness for the amended C8: one well-formed record aggregates into a
sorted bucket list; one bad record empties its aggregate. -/
theorem process_hourly_sales_props_witness :
    (∀ r ∈ [JSON.obj [("date_close", JSON.str "2024-01-01 10:30:00"),
        ("payed_sum", JSON.int 500)]], ∃ v, rowHourOf r = .ok v) ∧
    process_hourly_sales [.obj [("date_close", .str "not-a-date"),
        ("payed_sum", .int 100)]] = [] ∧
    List.Pairwise (fun a b => a.1 < b.1) (process_hourly_sales
      [.obj [("date_close", .str "2024-01-01 10:30:00"), ("payed_sum", .int 500)]]) := by
  have hparse : ∀ r ∈ [JSON.obj [("date_close", JSON.str "2024-01-01 10:30:00"),
      ("payed_sum", JSON.int 500)]], ∃ v, rowHourOf r = .ok v := by
    intro r hr
    rw [List.mem_singleton] at hr
    subst hr
    exact ⟨some 10, rfl⟩
  have hcol : [JSON.obj [("date_close", JSON.str "2024-01-01 10:30:00"),
      ("payed_sum", JSON.int 500)]].any
      (hasKeyJ · (sumColName [JSON.obj [("date_close", JSON.str "2024-01-01 10:30:00"),
        ("payed_sum", JSON.int 500)]])) = true := rfl
  have hbad : ∃ r ∈ [JSON.obj [("date_close", JSON.str "not-a-date"),
      ("payed_sum", JSON.int 100)]], rowHourOf r = .error () :=
    ⟨_, List.mem_singleton.mpr rfl, rfl⟩
  have h := process_hourly_sales_props _ _ hparse hcol hbad
  exact ⟨hparse, h.1, h.2.1⟩

/-- **C8 counterexample.**  (i) With one valid and one unparseable timestamp
the whole aggregate is empty — the unparseable record is NOT dropped
individually (alone, the valid record produces the hour-10 bucket).
(ii) An epoch-milliseconds close-timestamp (1700000000000 ms =
2023-11-14T22:13:20Z, hour 22) lands in bucket 0: the integer is read as
nanoseconds.  The final conjunct records the correct millisecond hour. -/
theorem hourly_sales_cex :
    process_hourly_sales
      [.obj [("date_close", .str "2024-01-01 10:30:00"), ("payed_sum", .int 500)],
       .obj [("date_close", .str "not-a-date"), ("payed_sum", .int 100)]] = [] ∧
    (process_hourly_sales
      [.obj [("date_close", .str "2024-01-01 10:30:00"),
        ("payed_sum", .int 500)]]).map (·.1) = [10] ∧
    (process_hourly_sales
      [.obj [("date_close", .int 1700000000000), ("payed_sum", .int 100)]]).map (·.1)
      = [0] ∧
    (1700000000000 / 3600000 % 24 : Int) = 22 :=
  ⟨rfl, rfl, rfl, by decide⟩

end Poster
